import Mathlib

/-!
Verification of the identifier-ingestion / query-construction / template-export
pipeline of `acct_id_input_app.py`.

The Python source is embedded shallowly:
* `sanitize_acct_id`, `build_select_query`, `run_query` model the functions of
  the same names (module + `AccountLookupApp.run_query`);
* Python's `str.strip()` is `pyStrip`;
* the regex check `re.compile(r"^[A-Za-z0-9_\-\.]{1,64}$").match(s)` is
  `safePatternMatch`, including CPython's semantics of `$`, which matches both
  at the end of the subject and just before one final newline;
* `raise ValueError(msg)` becomes `Except.error msg`.

Because the apostrophe character occurs in SQL literals and test identifiers,
it is written `squote = Char.ofNat 39` and string constants containing it are
assembled by concatenation.
-/

/-- The apostrophe / single-quote character, U+0027. -/
def squote : Char := Char.ofNat 39

/-- A one-character string holding a single quote. -/
def sqs : String := String.singleton squote

/-- Python `str.strip()` whitespace set (the ASCII part relevant here:
space, tab, newline, carriage return, vertical tab, form feed). -/
def isPyWhitespace (c : Char) : Bool :=
  c = ' ' || c = Char.ofNat 9 || c = Char.ofNat 10 || c = Char.ofNat 13 ||
  c = Char.ofNat 11 || c = Char.ofNat 12

/-- Strip `isPyWhitespace` characters from both ends of a character list. -/
def stripChars (l : List Char) : List Char :=
  ((l.dropWhile isPyWhitespace).reverse.dropWhile isPyWhitespace).reverse

/-- Python `str.strip()` with no arguments. -/
def pyStrip (s : String) : String := String.mk (stripChars s.data)

/-- Membership in the character class `[A-Za-z0-9_\-\.]` of
`SAFE_ACCT_ID_PATTERN` (source line 47). -/
def isSafeChar (c : Char) : Bool :=
  (('A' ≤ c && c ≤ 'Z') || ('a' ≤ c && c ≤ 'z') || ('0' ≤ c && c ≤ '9') ||
   c = '_' || c = '-' || c = '.')

/-- CPython semantics of `SAFE_ACCT_ID_PATTERN.match(s)` for the anchored
pattern `^[A-Za-z0-9_\-\.]{1,64}$`: the match succeeds when 1 to 64 class
characters cover the whole subject, or — because `$` in Python (without
`re.MULTILINE` / `\Z`) also matches just before a single trailing newline —
when they cover everything except one final `\n`. -/
def safePatternMatch (s : String) : Bool :=
  let l := s.data
  (decide (1 ≤ l.length) && decide (l.length ≤ 64) && l.all isSafeChar) ||
  (match l.getLast? with
   | some c =>
     c = Char.ofNat 10 &&
     (decide (1 ≤ l.dropLast.length) && decide (l.dropLast.length ≤ 64) &&
      l.dropLast.all isSafeChar)
   | none => false)

/-- Source lines 49–56: `sanitize_acct_id` raises `ValueError` when the id is
falsy (empty) or fails the allowlist pattern, and otherwise returns the id
unchanged. -/
def sanitize_acct_id (acct_id : String) : Except String String :=
  if acct_id.isEmpty || !safePatternMatch acct_id then
    Except.error "acct_id contains invalid characters."
  else
    Except.ok acct_id

/-- The f-string text of `build_select_query` (source lines 62–71) before the
interpolation point: everything up to (excluding) the opening quote. -/
def rawSelectHead : String :=
  "\n        SELECT\n            acct_id,\n            name,\n            segment,\n            balance,\n            status\n        FROM accounts\n        WHERE acct_id = "

/-- The raw f-string template of `build_select_query` (source lines 62–71)
with `{acct_id}` spliced in; `.strip()` is applied by `build_select_query`. -/
def selectTemplate (acct_id : String) : String :=
  rawSelectHead ++ sqs ++ acct_id ++ sqs ++ "\n    "

/-- Source lines 58–71: `build_select_query` interpolates the identifier into
the SELECT template between single quotes and strips the result. -/
def build_select_query (acct_id : String) : String :=
  pyStrip (selectTemplate acct_id)

/-- Outcome of the `run_query` handler as far as query construction goes:
either the empty-input message box, the invalid-id error box (no query
rendered), or a rendered query payload handed to `run_ccb_query`. -/
inductive QueryOutcome where
  | inputRequired : QueryOutcome
  | invalidId : String → QueryOutcome
  | rendered : String → QueryOutcome
deriving DecidableEq, Repr

/-- Source lines 248–263 (`AccountLookupApp.run_query`), up to the call of
`run_ccb_query`: strip the entry text, stop on empty input, sanitize, stop
(showing the error) on `ValueError`, otherwise build and show the query. -/
def run_query (input : String) : QueryOutcome :=
  if (pyStrip input).isEmpty then QueryOutcome.inputRequired
  else
    match sanitize_acct_id (pyStrip input) with
    | Except.error e => QueryOutcome.invalidId e
    | Except.ok acct_id => QueryOutcome.rendered (build_select_query acct_id)

/-- The spec's allowlist `[A-Za-z0-9_.-]{1,64}`, read as plain language for
comparison with `sanitize_acct_id`: non-empty, at most 64 characters, every
character from the class. -/
def specAllowlist (s : String) : Bool :=
  decide (1 ≤ s.data.length) && decide (s.data.length ≤ 64) &&
  s.data.all isSafeChar

/-- A cell value of the "Report" sheet: empty (`none`), a header string
(`Sum.inl`), or a data value (`Sum.inr`). -/
abbrev CellValue (α : Type) := Option (String ⊕ α)

/-- An openpyxl worksheet: a total cell map (1-indexed row/column; `none` is
an empty cell) together with the dimension counters `max_row`/`max_column`. -/
structure Sheet (α : Type) where
  cell : Nat → Nat → CellValue α
  maxRow : Nat
  maxCol : Nat

/-- `ws.cell(row=r, column=c, value=v)`: store `v` and grow the dimensions. -/
def Sheet.setCell (ws : Sheet α) (r c : Nat) (v : CellValue α) : Sheet α :=
  { cell := fun r2 c2 => if r2 = r ∧ c2 = c then v else ws.cell r2 c2
    maxRow := max ws.maxRow r
    maxCol := max ws.maxCol c }

/-- Well-formedness of a worksheet: no cell value outside the 1-indexed
dimension rectangle, as openpyxl guarantees for loaded and fresh sheets. -/
def Sheet.WF (ws : Sheet α) : Prop :=
  ∀ r c, (r < 1 ∨ c < 1 ∨ ws.maxRow < r ∨ ws.maxCol < c) → ws.cell r c = none

/-- A fresh openpyxl worksheet: no cell values, dimensions report 1×1. -/
def emptySheet (α : Type) : Sheet α :=
  { cell := fun _ _ => none, maxRow := 1, maxCol := 1 }

/-- An openpyxl workbook: named worksheets in order; the first is active. -/
structure Workbook (α : Type) where
  sheets : List (String × Sheet α)

/-- `wb.sheetnames`. -/
def Workbook.sheetnames (wb : Workbook α) : List String :=
  wb.sheets.map Prod.fst

/-- `wb[name]`, as an `Option`. -/
def Workbook.getSheet (wb : Workbook α) (name : String) : Option (Sheet α) :=
  (wb.sheets.find? (fun p => p.1 == name)).map Prod.snd

/-- Store a mutated worksheet back under its name (object mutation in the
Python source). -/
def Workbook.setSheet (wb : Workbook α) (name : String) (ws : Sheet α) :
    Workbook α :=
  ⟨wb.sheets.map (fun p => if p.1 == name then (p.1, ws) else p)⟩

/-- Source lines 104–105: `ws = wb.active; ws.title = "Report"` — rename the
active (first) worksheet to "Report". -/
def Workbook.renameActiveToReport (wb : Workbook α) : Workbook α :=
  match wb.sheets with
  | [] => ⟨[]⟩
  | s :: rest => ⟨("Report", s.2) :: rest⟩

/-- Workbook well-formedness: at least one sheet (openpyxl enforces this) and
every sheet well-formed. -/
def Workbook.WF (wb : Workbook α) : Prop :=
  wb.sheets ≠ [] ∧ ∀ p ∈ wb.sheets, Sheet.WF p.2

/-- The file system as far as the app touches it: a map from paths to
workbook files. -/
def FileSystem (α : Type) := String → Option (Workbook α)

/-- Every workbook file on disk is well-formed. -/
def FileSystem.WF (fs : FileSystem α) : Prop :=
  ∀ p wb, fs p = some wb → Workbook.WF wb

/-- `wb.save(path)`. -/
def FileSystem.save (fs : FileSystem α) (path : String) (wb : Workbook α) :
    FileSystem α :=
  fun p => if p = path then some wb else fs p

/-- A pandas DataFrame as the app consumes it: ordered column names and rows
of optional values (`none` models NaN/None, i.e. `pd.isna`). -/
structure DataFrame (α : Type) where
  columns : List String
  rows : List (List (Option α))

/-- `series[col]` for a row of a DataFrame with columns `cols`: label-based
lookup of the value at the column named `col` (first matching label). -/
def seriesGet (cols : List String) (row : List (Option α)) (col : String) :
    Option α :=
  match cols.findIdx? (fun c => c == col) with
  | some j => row.getD j none
  | none => none

/-- Source lines 91–92 inside `ensure_template_with_headers`: write `headers`
into row 1 of a worksheet, starting at column `c` (= 1 at the call site); also
models the identical header loop of `write_df_to_template` (lines 109–110). -/
def Sheet.writeHeaders (ws : Sheet α) (c : Nat) (cols : List String) :
    Sheet α :=
  match cols with
  | [] => ws
  | col :: rest =>
    Sheet.writeHeaders (ws.setCell 1 c (some (Sum.inl col))) (c + 1) rest

/-- Source lines 113–116: if `ws.max_row > 1`, set every cell of rows 2
through `max_row` (all columns up to `max_column`, as `iter_rows` yields) to
`None`. -/
def Sheet.clearDataRows (ws : Sheet α) : Sheet α :=
  if 1 < ws.maxRow then
    { cell := fun r c =>
        if 2 ≤ r ∧ r ≤ ws.maxRow ∧ 1 ≤ c ∧ c ≤ ws.maxCol then none
        else ws.cell r c
      maxRow := ws.maxRow
      maxCol := ws.maxCol }
  else ws

/-- Inner loop of source lines 119–122: write one DataFrame row into sheet
row `r`, walking the remaining headers `cols` from column `c`; each value is
fetched by label from the full header list `allCols` and NaN becomes `None`. -/
def Sheet.writeRowCells (ws : Sheet α) (r c : Nat) (cols allCols : List String)
    (row : List (Option α)) : Sheet α :=
  match cols with
  | [] => ws
  | col :: rest =>
    Sheet.writeRowCells
      (ws.setCell r c ((seriesGet allCols row col).map Sum.inr))
      r (c + 1) rest allCols row

/-- Outer loop of source lines 119–122 (`df.iterrows()` starting at sheet
row 2): write the DataFrame rows one per sheet row. -/
def Sheet.writeDataRows (ws : Sheet α) (r : Nat) (allCols : List String)
    (rows : List (List (Option α))) : Sheet α :=
  match rows with
  | [] => ws
  | row :: rest =>
    Sheet.writeDataRows (ws.writeRowCells r 1 allCols allCols row)
      (r + 1) allCols rest

/-- Source lines 85–94: a fresh template workbook whose "Report" sheet holds
only the header row. -/
def newTemplateWorkbook (α : Type) (headers : List String) : Workbook α :=
  ⟨[("Report", Sheet.writeHeaders (emptySheet α) 1 headers)]⟩

/-- Source lines 85–94: `ensure_template_with_headers` creates the template
file when it does not exist. (The Python function reads the module global
`TEMPLATE_PATH`, which at every call site equals the `template_path` argument
of `write_df_to_template`; the embedding passes it explicitly.) -/
def ensure_template_with_headers (headers : List String) (path : String)
    (fs : FileSystem α) : FileSystem α :=
  match fs path with
  | some _ => fs
  | none => fs.save path (newTemplateWorkbook α headers)

/-- Source lines 96–126: `write_df_to_template`. Raises on an empty/missing
DataFrame before touching any file; otherwise ensures the template exists,
loads it, selects/renames the "Report" sheet, writes the header row, clears
the old data region, writes the data rows, and saves to `output_path`,
returning the written path. -/
def write_df_to_template (df : Option (DataFrame α))
    (template_path output_path : String) (fs : FileSystem α) :
    Except String (FileSystem α × String) :=
  match df with
  | none => Except.error "No data to write to template."
  | some d =>
    if d.rows.isEmpty then Except.error "No data to write to template."
    else
      let fs1 := ensure_template_with_headers d.columns template_path fs
      match fs1 template_path with
      | none => Except.error "template file missing"
      | some wb0 =>
        let wb1 := if wb0.sheetnames.contains "Report" then wb0
                   else wb0.renameActiveToReport
        match wb1.getSheet "Report" with
        | none => Except.error "no Report sheet"
        | some ws0 =>
          Except.ok
            (fs1.save output_path
              (wb1.setSheet "Report"
                (((ws0.writeHeaders 1 d.columns).clearDataRows).writeDataRows
                  2 d.columns d.rows)),
             output_path)

/-- The file system after a call of `write_df_to_template`: updated on
success, untouched when the call raised. -/
def fsAfterWrite (df : Option (DataFrame α)) (t o : String)
    (fs : FileSystem α) : FileSystem α :=
  match write_df_to_template df t o fs with
  | Except.ok (fs2, _) => fs2
  | Except.error _ => fs

/-- The value of cell `(r, c)` of the "Report" sheet of the written output
file, `none` when the write raised or the file/sheet is absent. -/
def reportCellAfter (df : Option (DataFrame α)) (t o : String)
    (fs : FileSystem α) (r c : Nat) : CellValue α :=
  match write_df_to_template df t o fs with
  | Except.ok (fs2, out) =>
    match fs2 out with
    | some wb =>
      match wb.getSheet "Report" with
      | some ws => ws.cell r c
      | none => none
    | none => none
  | Except.error _ => none

/-- Modelled from the spec: the Batch Query Builder's partitioning (§4.3,
"Partitions `ids` into contiguous chunks of at most `max_batch_size`,
preserving original order; last chunk may be smaller"). The chunked variant
of the application is not under `src/`; only the single-lookup variant is. -/
def chunkGo (k : Nat) : Nat → List String → List (List String)
  | _, [] => []
  | 0, _ :: _ => []
  | n + 1, x :: xs => (x :: xs.take (k - 1)) :: chunkGo k n (xs.drop (k - 1))

/-- Modelled from the spec (§4.3, continued): partition into contiguous
chunks, implemented with a fuel counter that starts at the list length (one
element at least is consumed per chunk, so the fuel never runs out). -/
def chunkIds (k : Nat) (ids : List String) : List (List String) :=
  chunkGo k ids.length ids

/-- Modelled from the spec: `build(ids, max_batch_size)` of §4.3 —
`max_batch_size` must be positive (zero fails with a configuration error
before any partitioning), and the identifier set is partitioned into ordered
chunks. -/
def build_query_batches (ids : List String) (max_batch_size : Nat) :
    Except String (List (List String)) :=
  if max_batch_size = 0 then
    Except.error "ConfigurationError: max_batch_size must be positive"
  else
    Except.ok (chunkIds max_batch_size ids)

/-- The directly-quoted part of the stripped SELECT statement, up to and
including the opening quote of the identifier literal. -/
def sqlSelectHead : String :=
  "SELECT\n            acct_id,\n            name,\n            segment,\n            balance,\n            status\n        FROM accounts\n        WHERE acct_id = " ++
  sqs

/-- The identifier used throughout the spec's escaping discussion. -/
def obrien : String := "O" ++ sqs ++ "Brien" ++ sqs ++ "s"

/-- The same identifier with each single quote doubled, the spec's claimed
escaped rendering. -/
def obrienDoubled : String :=
  "O" ++ sqs ++ sqs ++ "Brien" ++ sqs ++ sqs ++ "s"

/-- A token accepted by `sanitize_acct_id` although it ends in a newline. -/
def newlineToken : String := "A" ++ String.singleton (Char.ofNat 10)

theorem dropWhile_append_of_ne_nil {p : α → Bool} {l₁ : List α} (l₂ : List α)
    (h : l₁.dropWhile p ≠ []) :
    (l₁ ++ l₂).dropWhile p = l₁.dropWhile p ++ l₂ := by
  induction l₁ with
  | nil => exact absurd rfl h
  | cons a t ih =>
    by_cases hp : p a
    · rw [List.dropWhile_cons_of_pos hp] at h
      rw [List.cons_append, List.dropWhile_cons_of_pos hp,
        List.dropWhile_cons_of_pos hp]
      exact ih h
    · rw [List.cons_append, List.dropWhile_cons_of_neg hp,
        List.dropWhile_cons_of_neg hp, List.cons_append]

theorem dropWhile_append_of_nil {p : α → Bool} {l₁ : List α} (l₂ : List α)
    (h : l₁.dropWhile p = []) :
    (l₁ ++ l₂).dropWhile p = l₂.dropWhile p := by
  induction l₁ with
  | nil => simp
  | cons a t ih =>
    by_cases hp : p a
    · rw [List.cons_append, List.dropWhile_cons_of_pos hp]
      exact ih (by rwa [List.dropWhile_cons_of_pos hp] at h)
    · rw [List.dropWhile_cons_of_neg hp] at h
      exact absurd h (by simp)

theorem safePatternMatch_empty_false : safePatternMatch "" = false := by decide

theorem sanitize_ok_iff (s t : String) :
    sanitize_acct_id s = Except.ok t ↔ t = s ∧ safePatternMatch s = true := by
  unfold sanitize_acct_id
  by_cases h : (s.isEmpty || !safePatternMatch s) = true
  · rw [if_pos h]
    constructor
    · intro hc; exact absurd hc (by simp)
    · rintro ⟨rfl, hm⟩
      rcases Bool.or_eq_true_iff.mp h with he | hn
      · have hse : t = "" := (String.isEmpty_iff t).mp he
        rw [hse] at hm
        exact absurd hm (by simp [safePatternMatch_empty_false])
      · rw [hm] at hn; exact absurd hn (by simp)
  · rw [if_neg h]
    have h2 := h
    simp only [Bool.or_eq_true, not_or, Bool.not_eq_true, Bool.not_eq_true',
      Bool.not_eq_false] at h2
    constructor
    · intro hc
      have := Except.ok.inj hc
      exact ⟨this.symm, h2.2⟩
    · rintro ⟨rfl, _⟩; rfl

/-- C10: `sanitize_acct_id` is the identity on every accepted input — an
accepted token is returned unchanged, and re-sanitizing the returned token
accepts and returns it again. -/
theorem sanitize_identity (s t : String)
    (h : sanitize_acct_id s = Except.ok t) :
    t = s ∧ sanitize_acct_id t = Except.ok t := by
  obtain ⟨rfl, hm⟩ := (sanitize_ok_iff s t).mp h
  exact ⟨rfl, h⟩

theorem sanitize_identity_witness :
    "A001" = "A001" ∧ sanitize_acct_id "A001" = Except.ok "A001" :=
  sanitize_identity "A001" "A001" rfl

/-- C2 counterexample: the token `"A\n"` is accepted by `sanitize_acct_id`
(CPython's `$` matches before the trailing newline) although it contains a
newline, which is outside the allowlist class, so acceptance is not exactly
the allowlist language of the claim. -/
theorem sanitize_allowlist_counterexample :
    sanitize_acct_id newlineToken = Except.ok newlineToken ∧
    specAllowlist newlineToken = false :=
  ⟨rfl, by decide⟩

/-- C2 amended: `sanitize_acct_id` accepts exactly the allowlist language
`[A-Za-z0-9_.-]{1,64}` plus those strings obtained from it by appending one
final newline (a consequence of Python's `$` semantics in `re.match`). -/
theorem sanitize_ok_iff_allowlist_mod_newline (s : String) :
    (∃ t, sanitize_acct_id s = Except.ok t) ↔
    (specAllowlist s = true ∨
      (s.data.getLast? = some (Char.ofNat 10) ∧
        specAllowlist (String.mk s.data.dropLast) = true)) := by
  constructor
  · rintro ⟨t, ht⟩
    have hm := ((sanitize_ok_iff s t).mp ht).2
    unfold safePatternMatch at hm
    simp only [Bool.or_eq_true, Bool.and_eq_true, decide_eq_true_eq] at hm
    rcases hm with h1 | h2
    · left
      unfold specAllowlist
      simp only [Bool.and_eq_true, decide_eq_true_eq]
      exact h1
    · right
      cases hl : s.data.getLast? with
      | none => rw [hl] at h2; exact absurd h2 (by simp)
      | some c =>
        rw [hl] at h2
        simp only [Bool.and_eq_true, decide_eq_true_eq] at h2
        refine ⟨by simp [h2.1], ?_⟩
        unfold specAllowlist
        simp only [Bool.and_eq_true, decide_eq_true_eq]
        exact h2.2
  · intro h
    refine ⟨s, (sanitize_ok_iff s s).mpr ⟨rfl, ?_⟩⟩
    unfold safePatternMatch
    simp only [Bool.or_eq_true, Bool.and_eq_true, decide_eq_true_eq]
    rcases h with h1 | ⟨hl, h2⟩
    · left
      unfold specAllowlist at h1
      simp only [Bool.and_eq_true, decide_eq_true_eq] at h1
      exact h1
    · right
      rw [hl]
      unfold specAllowlist at h2
      simp only [Bool.and_eq_true, decide_eq_true_eq] at h2
      simp only [Bool.and_eq_true, decide_eq_true_eq]
      exact ⟨trivial, h2⟩

theorem sanitize_ok_iff_allowlist_mod_newline_witness :
    specAllowlist "A001" = true ∨
    ("A001".data.getLast? = some (Char.ofNat 10) ∧
      specAllowlist (String.mk "A001".data.dropLast) = true) :=
  (sanitize_ok_iff_allowlist_mod_newline "A001").mp ⟨"A001", rfl⟩

/-- C8 counterexample: rejecting the token `O'Brien's` raises a `ValueError`
whose message is the fixed string "acct_id contains invalid characters.",
which does not contain the offending token. -/
theorem sanitize_error_message_counterexample :
    sanitize_acct_id obrien =
      Except.error "acct_id contains invalid characters." ∧
    ¬ obrien.data <:+: "acct_id contains invalid characters.".data :=
  ⟨rfl, by decide⟩

/-- C8 amended: a rejected token always produces the same fixed error message
(the offending token is not carried in the error value; the caller
`run_query` separately logs the raw token at warning level). -/
theorem sanitize_error_message_fixed (s e : String)
    (h : sanitize_acct_id s = Except.error e) :
    e = "acct_id contains invalid characters." := by
  unfold sanitize_acct_id at h
  by_cases hc : (s.isEmpty || !safePatternMatch s) = true
  · rw [if_pos hc] at h
    exact (Except.error.inj h).symm
  · rw [if_neg hc] at h
    exact absurd h (by simp)

theorem sanitize_error_message_fixed_witness :
    "acct_id contains invalid characters." =
      "acct_id contains invalid characters." :=
  sanitize_error_message_fixed obrien "acct_id contains invalid characters."
    rfl

theorem chunkGo_join (k : Nat) (hk : 1 ≤ k) :
    ∀ (n : Nat) (ids : List String), ids.length ≤ n →
      (chunkGo k n ids).flatten = ids := by
  intro n
  induction n with
  | zero =>
    intro ids h
    have hnil : ids = [] := List.eq_nil_of_length_eq_zero (Nat.le_zero.mp h)
    subst hnil; rfl
  | succ n ih =>
    intro ids h
    cases ids with
    | nil => rfl
    | cons x xs =>
      show ((x :: xs.take (k - 1)) :: chunkGo k n (xs.drop (k - 1))).flatten
          = x :: xs
      rw [List.flatten_cons, ih (xs.drop (k - 1)) ?_]
      · rw [List.cons_append, List.take_append_drop]
      · rw [List.length_drop]
        have hx : xs.length ≤ n := by
          have := h
          simp only [List.length_cons] at this
          omega
        omega

theorem chunkGo_sizes (k : Nat) (hk : 1 ≤ k) :
    ∀ (n : Nat) (ids : List String) (b : List String),
      b ∈ chunkGo k n ids → b ≠ [] ∧ b.length ≤ k := by
  intro n
  induction n with
  | zero =>
    intro ids b hb
    cases ids <;> simp [chunkGo] at hb
  | succ n ih =>
    intro ids b hb
    cases ids with
    | nil => simp [chunkGo] at hb
    | cons x xs =>
      simp only [chunkGo, List.mem_cons] at hb
      rcases hb with rfl | hb
      · refine ⟨by simp, ?_⟩
        simp only [List.length_cons]
        have ht : (xs.take (k - 1)).length ≤ k - 1 := by
          rw [List.length_take]
          exact Nat.min_le_left _ _
        omega
      · exact ih _ _ hb

/-- C9: for every identifier list and every `max_batch_size ≥ 1`, the batch
builder partitions the identifiers into contiguous non-empty chunks of at
most `max_batch_size`, and concatenating all chunks in order reproduces the
original list exactly. -/
theorem build_query_batches_partition (ids : List String) (k : Nat)
    (hk : 1 ≤ k) :
    build_query_batches ids k = Except.ok (chunkIds k ids) ∧
    (chunkIds k ids).flatten = ids ∧
    ∀ b ∈ chunkIds k ids, b ≠ [] ∧ b.length ≤ k := by
  refine ⟨?_, ?_, ?_⟩
  · unfold build_query_batches
    rw [if_neg (by omega)]
  · exact chunkGo_join k hk ids.length ids le_rfl
  · intro b hb
    exact chunkGo_sizes k hk ids.length ids b hb

theorem build_query_batches_partition_witness :
    build_query_batches ["a", "b", "c"] 2
        = Except.ok (chunkIds 2 ["a", "b", "c"]) ∧
    (chunkIds 2 ["a", "b", "c"]).flatten = ["a", "b", "c"] :=
  ⟨(build_query_batches_partition ["a", "b", "c"] 2 (by decide)).1,
   (build_query_batches_partition ["a", "b", "c"] 2 (by decide)).2.1⟩

theorem strip_right_end (A m T : List Char)
    (hT : T.reverse.dropWhile isPyWhitespace = []) :
    ((A ++ (squote :: (m ++ (squote :: T)))).reverse.dropWhile
        isPyWhitespace).reverse
      = A ++ (squote :: (m ++ [squote])) := by
  rw [List.reverse_append, List.reverse_cons, List.reverse_append,
    List.reverse_cons]
  rw [List.append_assoc, List.append_assoc, List.append_assoc]
  rw [dropWhile_append_of_nil _ hT]
  rw [List.singleton_append, List.dropWhile_cons_of_neg (by decide)]
  simp [List.reverse_cons, List.reverse_append, List.append_assoc]

/-- C3 amended: `build_select_query` interpolates the identifier verbatim —
with no quote doubling or any other escaping — between single quotes at the
end of the stripped SELECT statement. -/
theorem build_select_query_eq (acct_id : String) :
    build_select_query acct_id = sqlSelectHead ++ acct_id ++ sqs := by
  apply String.ext
  show stripChars (selectTemplate acct_id).data
      = (sqlSelectHead ++ acct_id ++ sqs).data
  have h1 : (selectTemplate acct_id).data
      = rawSelectHead.data ++
          (squote :: (acct_id.data ++ (squote :: ("\n    " : String).data))) := by
    simp [selectTemplate, sqs, String.singleton, String.data_append,
      List.append_assoc]
  rw [h1]
  unfold stripChars
  rw [dropWhile_append_of_ne_nil _ (by decide)]
  rw [strip_right_end _ _ _ (by decide)]
  have h2 : rawSelectHead.data.dropWhile isPyWhitespace ++ [squote]
      = sqlSelectHead.data := by decide
  have h3 : (sqlSelectHead ++ acct_id ++ sqs).data
      = (rawSelectHead.data.dropWhile isPyWhitespace ++ [squote]) ++
          acct_id.data ++ [squote] := by
    rw [h2]
    simp [String.data_append, sqs, String.singleton]
  rw [h3]
  simp [List.append_assoc]

set_option maxRecDepth 8192 in
/-- C3 counterexample: the payload rendered for the identifier O-apostrophe-
Brien-apostrophe-s embeds the token verbatim (no quote is doubled); the
escaped literal the claim expects does not occur anywhere in the payload. -/
theorem escaping_counterexample :
    build_select_query obrien = sqlSelectHead ++ obrien ++ sqs ∧
    ¬ obrienDoubled.data <:+: (build_select_query obrien).data :=
  ⟨by decide, by decide⟩

theorem pyStrip_getLast_not_ws (s : String) (c : Char)
    (h : (pyStrip s).data.getLast? = some c) : isPyWhitespace c = false := by
  have h2 : ((s.data.dropWhile isPyWhitespace).reverse.dropWhile
      isPyWhitespace).head? = some c := by
    simpa [pyStrip, stripChars, List.getLast?_reverse] using h
  have h3 := List.head?_dropWhile_not isPyWhitespace
    (s.data.dropWhile isPyWhitespace).reverse
  rw [h2] at h3
  exact h3

theorem sanitize_rejects_squote (s : String)
    (hlast : ∀ c, s.data.getLast? = some c → isPyWhitespace c = false)
    (hmem : squote ∈ s.data) :
    sanitize_acct_id s = Except.error "acct_id contains invalid characters." := by
  have hm : safePatternMatch s = false := by
    unfold safePatternMatch
    have h1 : s.data.all isSafeChar = false := by
      rw [List.all_eq_false]
      exact ⟨squote, hmem, by decide⟩
    cases hc : s.data.getLast? with
    | none => simp [h1, hc]
    | some c =>
      have hcw := hlast c hc
      have hcn : decide (c = Char.ofNat 10) = false := by
        rw [decide_eq_false_iff_not]
        intro heq
        rw [heq] at hcw
        exact absurd hcw (by decide)
      simp [h1, hc, hcn]
  unfold sanitize_acct_id
  rw [if_pos (by simp [hm])]

/-- C1: validation precedes rendering — whenever `run_query` renders a query
payload, that payload is `build_select_query` applied to a token
`sanitize_acct_id` has accepted (and returned unchanged); and for any entered
token containing an apostrophe, strict validation fails with the
invalid-identifier error and no query payload is rendered. -/
theorem validation_precedes_rendering (input : String) :
    (∀ q, run_query input = QueryOutcome.rendered q →
      ∃ s, sanitize_acct_id s = Except.ok s ∧ q = build_select_query s) ∧
    (squote ∈ (pyStrip input).data →
      run_query input =
        QueryOutcome.invalidId "acct_id contains invalid characters.") := by
  constructor
  · intro q hq
    unfold run_query at hq
    by_cases he : (pyStrip input).isEmpty
    · rw [if_pos he] at hq
      exact absurd hq (by simp)
    · rw [if_neg he] at hq
      cases hs : sanitize_acct_id (pyStrip input) with
      | error e =>
        rw [hs] at hq
        exact absurd hq (by simp)
      | ok a =>
        rw [hs] at hq
        have ha := (sanitize_ok_iff (pyStrip input) a).mp hs
        refine ⟨a, ?_, ?_⟩
        · rw [ha.1]
          exact (sanitize_ok_iff _ _).mpr ⟨rfl, ha.1 ▸ ha.2⟩
        · exact (QueryOutcome.rendered.inj hq).symm
  · intro hmem
    have hne : ¬ (pyStrip input).isEmpty = true := by
      intro he
      have : pyStrip input = "" := (String.isEmpty_iff _).mp he
      rw [this] at hmem
      exact absurd hmem (by decide)
    have herr := sanitize_rejects_squote (pyStrip input)
      (fun c hc => pyStrip_getLast_not_ws input c hc) hmem
    unfold run_query
    rw [if_neg hne, herr]

theorem validation_precedes_rendering_witness :
    run_query obrien =
      QueryOutcome.invalidId "acct_id contains invalid characters." :=
  (validation_precedes_rendering obrien).2 (by decide)

theorem setCell_cell (ws : Sheet α) (r c r2 c2 : Nat) (v : CellValue α) :
    (ws.setCell r c v).cell r2 c2
      = if r2 = r ∧ c2 = c then v else ws.cell r2 c2 := rfl

theorem setCell_WF (ws : Sheet α) (hws : ws.WF) (r c : Nat) (hr : 1 ≤ r)
    (hc : 1 ≤ c) (v : CellValue α) : (ws.setCell r c v).WF := by
  intro r2 c2 hout
  rw [setCell_cell]
  have hmr : r ≤ max ws.maxRow r := Nat.le_max_right _ _
  have hmc : c ≤ max ws.maxCol c := Nat.le_max_right _ _
  have hmr2 : ws.maxRow ≤ max ws.maxRow r := Nat.le_max_left _ _
  have hmc2 : ws.maxCol ≤ max ws.maxCol c := Nat.le_max_left _ _
  have hout2 : r2 < 1 ∨ c2 < 1 ∨ max ws.maxRow r < r2 ∨ max ws.maxCol c < c2 :=
    hout
  by_cases h : r2 = r ∧ c2 = c
  · rcases h with ⟨rfl, rfl⟩
    omega
  · rw [if_neg h]
    apply hws
    omega

theorem emptySheet_WF : (emptySheet α).WF := by
  intro r c _
  rfl

theorem writeHeaders_cell_ne_row1 (cols : List String) :
    ∀ (ws : Sheet α) (c r2 c2 : Nat), r2 ≠ 1 →
      (ws.writeHeaders c cols).cell r2 c2 = ws.cell r2 c2 := by
  induction cols with
  | nil => intro ws c r2 c2 _; rfl
  | cons col rest ih =>
    intro ws c r2 c2 hr
    show (Sheet.writeHeaders _ (c + 1) rest).cell r2 c2 = _
    rw [ih _ (c + 1) r2 c2 hr, setCell_cell,
      if_neg (by intro h; exact hr h.1)]

theorem writeHeaders_cell_lt (cols : List String) :
    ∀ (ws : Sheet α) (c r2 c2 : Nat), c2 < c →
      (ws.writeHeaders c cols).cell r2 c2 = ws.cell r2 c2 := by
  induction cols with
  | nil => intro ws c r2 c2 _; rfl
  | cons col rest ih =>
    intro ws c r2 c2 hc
    show (Sheet.writeHeaders _ (c + 1) rest).cell r2 c2 = _
    rw [ih _ (c + 1) r2 c2 (by omega), setCell_cell,
      if_neg (by intro h; omega)]

theorem writeHeaders_cell_at (cols : List String) :
    ∀ (ws : Sheet α) (c j : Nat) (hj : j < cols.length),
      (ws.writeHeaders c cols).cell 1 (c + j)
        = some (Sum.inl (cols.get ⟨j, hj⟩)) := by
  induction cols with
  | nil => intro ws c j hj; exact absurd hj (by simp)
  | cons col rest ih =>
    intro ws c j hj
    cases j with
    | zero =>
      show (Sheet.writeHeaders _ (c + 1) rest).cell 1 (c + 0) = _
      rw [writeHeaders_cell_lt rest _ (c + 1) 1 (c + 0) (by omega),
        setCell_cell, if_pos ⟨rfl, by omega⟩]
      rfl
    | succ j2 =>
      show (Sheet.writeHeaders _ (c + 1) rest).cell 1 (c + (j2 + 1)) = _
      have hj2 : j2 < rest.length := by simpa using hj
      have := ih (ws.setCell 1 c (some (Sum.inl col))) (c + 1) j2 hj2
      rw [show c + (j2 + 1) = (c + 1) + j2 from by omega, this]
      rfl

theorem writeHeaders_WF (cols : List String) :
    ∀ (ws : Sheet α) (c : Nat), 1 ≤ c → ws.WF →
      (ws.writeHeaders c cols).WF := by
  induction cols with
  | nil => intro ws c _ hws; exact hws
  | cons col rest ih =>
    intro ws c hc hws
    exact ih _ (c + 1) (by omega)
      (setCell_WF ws hws 1 c (by omega) hc _)

theorem clearData_cell_none (ws : Sheet α) (hws : ws.WF) (r c : Nat)
    (hr : 2 ≤ r) : ws.clearDataRows.cell r c = none := by
  unfold Sheet.clearDataRows
  by_cases h : 1 < ws.maxRow
  · rw [if_pos h]
    dsimp only
    by_cases hin : 2 ≤ r ∧ r ≤ ws.maxRow ∧ 1 ≤ c ∧ c ≤ ws.maxCol
    · rw [if_pos hin]
    · rw [if_neg hin]
      exact hws r c (by omega)
  · rw [if_neg h]
    exact hws r c (by omega)

theorem clearData_cell_row1 (ws : Sheet α) (c : Nat) :
    ws.clearDataRows.cell 1 c = ws.cell 1 c := by
  unfold Sheet.clearDataRows
  by_cases h : 1 < ws.maxRow
  · rw [if_pos h]
    dsimp only
    rw [if_neg (by omega)]
  · rw [if_neg h]

theorem writeRowCells_cell_other (cols : List String) :
    ∀ (ws : Sheet α) (r c : Nat) (allCols : List String)
      (row : List (Option α)) (r2 c2 : Nat),
      (r2 ≠ r ∨ c2 < c ∨ c + cols.length ≤ c2) →
      (ws.writeRowCells r c cols allCols row).cell r2 c2 = ws.cell r2 c2 := by
  induction cols with
  | nil => intro ws r c allCols row r2 c2 _; rfl
  | cons col rest ih =>
    intro ws r c allCols row r2 c2 hout
    show (Sheet.writeRowCells _ r (c + 1) rest allCols row).cell r2 c2 = _
    have hout2 : r2 ≠ r ∨ c2 < c + 1 ∨ (c + 1) + rest.length ≤ c2 := by
      rcases hout with h | h | h
      · exact Or.inl h
      · exact Or.inr (Or.inl (by omega))
      · simp only [List.length_cons] at h
        exact Or.inr (Or.inr (by omega))
    rw [ih _ r (c + 1) allCols row r2 c2 hout2, setCell_cell, if_neg ?_]
    intro hcc
    rcases hout with h | h | h
    · exact h hcc.1
    · omega
    · have : c + (rest.length + 1) ≤ c2 := by simpa [List.length_cons] using h
      omega

theorem writeRowCells_cell_at (cols : List String) :
    ∀ (ws : Sheet α) (r c : Nat) (allCols : List String)
      (row : List (Option α)) (j : Nat) (hj : j < cols.length),
      (ws.writeRowCells r c cols allCols row).cell r (c + j)
        = (seriesGet allCols row (cols.get ⟨j, hj⟩)).map Sum.inr := by
  induction cols with
  | nil => intro ws r c allCols row j hj; exact absurd hj (by simp)
  | cons col rest ih =>
    intro ws r c allCols row j hj
    cases j with
    | zero =>
      show (Sheet.writeRowCells _ r (c + 1) rest allCols row).cell r (c + 0)
          = _
      rw [writeRowCells_cell_other rest _ r (c + 1) allCols row r (c + 0)
          (Or.inr (Or.inl (by omega))),
        setCell_cell, if_pos ⟨rfl, by omega⟩]
      rfl
    | succ j2 =>
      show (Sheet.writeRowCells _ r (c + 1) rest allCols row).cell r
          (c + (j2 + 1)) = _
      have hj2 : j2 < rest.length := by simpa using hj
      have := ih (ws.setCell r c ((seriesGet allCols row col).map Sum.inr))
        r (c + 1) allCols row j2 hj2
      rw [show c + (j2 + 1) = (c + 1) + j2 from by omega, this]
      rfl

theorem writeDataRows_cell_other (rows : List (List (Option α))) :
    ∀ (ws : Sheet α) (r : Nat) (allCols : List String) (r2 c2 : Nat),
      (r2 < r ∨ r + rows.length ≤ r2) →
      (ws.writeDataRows r allCols rows).cell r2 c2 = ws.cell r2 c2 := by
  induction rows with
  | nil => intro ws r allCols r2 c2 _; rfl
  | cons row rest ih =>
    intro ws r allCols r2 c2 hout
    show (Sheet.writeDataRows _ (r + 1) allCols rest).cell r2 c2 = _
    have hout2 : r2 < r + 1 ∨ (r + 1) + rest.length ≤ r2 := by
      rcases hout with h | h
      · exact Or.inl (by omega)
      · simp only [List.length_cons] at h
        exact Or.inr (by omega)
    rw [ih _ (r + 1) allCols r2 c2 hout2]
    apply writeRowCells_cell_other
    rcases hout with h | h
    · exact Or.inl (by omega)
    · simp only [List.length_cons] at h
      exact Or.inl (by omega)

theorem writeDataRows_cell_outside_cols (rows : List (List (Option α))) :
    ∀ (ws : Sheet α) (r : Nat) (allCols : List String) (r2 c2 : Nat),
      1 + allCols.length ≤ c2 →
      (ws.writeDataRows r allCols rows).cell r2 c2 = ws.cell r2 c2 := by
  induction rows with
  | nil => intro ws r allCols r2 c2 _; rfl
  | cons row rest ih =>
    intro ws r allCols r2 c2 hc
    show (Sheet.writeDataRows _ (r + 1) allCols rest).cell r2 c2 = _
    rw [ih _ (r + 1) allCols r2 c2 hc]
    exact writeRowCells_cell_other allCols _ r 1 allCols row r2 c2
      (Or.inr (Or.inr hc))

theorem writeDataRows_cell_at (rows : List (List (Option α))) :
    ∀ (ws : Sheet α) (r : Nat) (allCols : List String) (i : Nat)
      (hi : i < rows.length) (j : Nat) (hj : j < allCols.length),
      (ws.writeDataRows r allCols rows).cell (r + i) (1 + j)
        = (seriesGet allCols (rows.get ⟨i, hi⟩)
            (allCols.get ⟨j, hj⟩)).map Sum.inr := by
  induction rows with
  | nil => intro ws r allCols i hi; exact absurd hi (by simp)
  | cons row rest ih =>
    intro ws r allCols i hi j hj
    cases i with
    | zero =>
      show (Sheet.writeDataRows _ (r + 1) allCols rest).cell (r + 0) (1 + j)
          = _
      rw [writeDataRows_cell_other rest _ (r + 1) allCols (r + 0) (1 + j)
          (Or.inl (by omega))]
      exact writeRowCells_cell_at allCols _ r 1 allCols row j hj
    | succ i2 =>
      show (Sheet.writeDataRows _ (r + 1) allCols rest).cell (r + (i2 + 1))
          (1 + j) = _
      have hi2 : i2 < rest.length := by simpa using hi
      have := ih (ws.writeRowCells r 1 allCols allCols row) (r + 1) allCols
        i2 hi2 j hj
      rw [show r + (i2 + 1) = (r + 1) + i2 from by omega, this]
      rfl

theorem getSheet_WF (wb : Workbook α) (hwb : wb.WF) (name : String)
    (ws : Sheet α) (h : wb.getSheet name = some ws) : ws.WF := by
  unfold Workbook.getSheet at h
  cases hf : wb.sheets.find? (fun p => p.1 == name) with
  | none => rw [hf] at h; exact absurd h (by simp)
  | some p =>
    rw [hf] at h
    have h2 : p.2 = ws := by simpa using h
    have hmem := List.mem_of_find?_eq_some hf
    rw [← h2]
    exact hwb.2 p hmem

theorem newTemplateWorkbook_WF (headers : List String) :
    (newTemplateWorkbook α headers).WF := by
  constructor
  · simp [newTemplateWorkbook]
  · intro p hp
    simp only [newTemplateWorkbook, List.mem_singleton] at hp
    rw [hp]
    exact writeHeaders_WF headers (emptySheet α) 1 le_rfl emptySheet_WF

theorem reportReady_WF (wb : Workbook α) (hwb : wb.WF) :
    (if wb.sheetnames.contains "Report" then wb
     else wb.renameActiveToReport).WF := by
  by_cases h : wb.sheetnames.contains "Report" = true
  · rw [if_pos h]; exact hwb
  · rw [if_neg h]
    unfold Workbook.renameActiveToReport
    cases hs : wb.sheets with
    | nil => exact absurd hs hwb.1
    | cons s rest =>
      constructor
      · simp
      · intro p hp
        rcases List.mem_cons.mp hp with rfl | hp2
        · exact hwb.2 s (hs ▸ List.mem_cons_self s rest)
        · exact hwb.2 p (hs ▸ List.mem_cons_of_mem s hp2)

theorem optionIsSome_map {β γ : Type} (f : β → γ) (x : Option β) :
    (x.map f).isSome = x.isSome := by
  cases x <;> rfl

theorem find?_map_setSheet (name : String) (ws : Sheet α) :
    ∀ (l : List (String × Sheet α)),
      (l.find? (fun p => p.1 == name)).isSome →
      (((l.map (fun p => if p.1 == name then (p.1, ws) else p)).find?
          (fun p => p.1 == name)).map Prod.snd) = some ws := by
  intro l
  induction l with
  | nil => intro h; exact absurd h (by simp)
  | cons q rest ih =>
    intro h
    by_cases hp : (q.1 == name) = true
    · rw [List.map_cons, if_pos hp]
      rw [List.find?_cons_of_pos _ (by exact hp)]
      rfl
    · have hpb : ((fun p : String × Sheet α => p.1 == name) q) = false := by
        simpa using hp
      rw [List.map_cons, if_neg hp]
      rw [List.find?_cons_of_neg _ (by simpa using hp)]
      apply ih
      have h2 := h
      rw [List.find?_cons_of_neg _ (by simpa using hp)] at h2
      exact h2

theorem getSheet_setSheet (wb : Workbook α) (name : String) (ws : Sheet α)
    (h : (wb.getSheet name).isSome) :
    (wb.setSheet name ws).getSheet name = some ws := by
  unfold Workbook.getSheet at h ⊢
  unfold Workbook.setSheet
  dsimp only
  apply find?_map_setSheet
  rwa [optionIsSome_map] at h

theorem reportReady_getSheet_isSome (wb : Workbook α) (hwb : wb.WF) :
    ((if wb.sheetnames.contains "Report" then wb
      else wb.renameActiveToReport).getSheet "Report").isSome := by
  by_cases h : wb.sheetnames.contains "Report" = true
  · rw [if_pos h]
    unfold Workbook.getSheet
    rw [optionIsSome_map]
    rw [List.find?_isSome]
    unfold Workbook.sheetnames at h
    have h2 : "Report" ∈ wb.sheets.map Prod.fst := by simpa using h
    obtain ⟨p, hpmem, hfst⟩ := List.mem_map.mp h2
    exact ⟨p, hpmem, by simp [hfst]⟩
  · rw [if_neg h]
    unfold Workbook.renameActiveToReport Workbook.getSheet
    cases hs : wb.sheets with
    | nil => exact absurd hs hwb.1
    | cons s rest => simp [List.find?_cons]

theorem ensure_at_path (headers : List String) (path : String)
    (fs : FileSystem α) (hfs : FileSystem.WF fs) :
    ∃ wb, ensure_template_with_headers headers path fs path = some wb ∧
      wb.WF := by
  unfold ensure_template_with_headers
  cases hp : fs path with
  | some wb => exact ⟨wb, hp, hfs path wb hp⟩
  | none =>
    refine ⟨newTemplateWorkbook α headers, ?_, newTemplateWorkbook_WF headers⟩
    simp [FileSystem.save]

theorem ensure_preserves_some (headers : List String) (path : String)
    (fs : FileSystem α) (p : String) (hp : (fs p).isSome) :
    ensure_template_with_headers headers path fs p = fs p := by
  unfold ensure_template_with_headers
  cases hq : fs path with
  | some wb => rfl
  | none =>
    by_cases he : p = path
    · rw [he] at hp
      rw [hq] at hp
      exact absurd hp (by simp)
    · simp [FileSystem.save, he]

theorem write_some_ok (d : DataFrame α) (t o : String) (fs : FileSystem α)
    (hfs : FileSystem.WF fs) (hrows : d.rows ≠ []) :
    ∃ (wb1 : Workbook α) (ws0 : Sheet α),
      wb1.getSheet "Report" = some ws0 ∧ Sheet.WF ws0 ∧
      write_df_to_template (some d) t o fs
        = Except.ok
            ((ensure_template_with_headers d.columns t fs).save o
              (wb1.setSheet "Report"
                (((ws0.writeHeaders 1 d.columns).clearDataRows).writeDataRows
                  2 d.columns d.rows)), o) := by
  have hne : d.rows.isEmpty = false := by
    cases hr : d.rows with
    | nil => exact absurd hr hrows
    | cons a l => rfl
  obtain ⟨wb0, hwb0eq, hwb0wf⟩ := ensure_at_path d.columns t fs hfs
  have hsome := reportReady_getSheet_isSome wb0 hwb0wf
  obtain ⟨ws0, hws0⟩ := Option.isSome_iff_exists.mp hsome
  refine ⟨(if wb0.sheetnames.contains "Report" then wb0
    else wb0.renameActiveToReport), ws0, hws0,
    getSheet_WF _ (reportReady_WF wb0 hwb0wf) _ _ hws0, ?_⟩
  unfold write_df_to_template
  simp only [hne]
  rw [if_neg (show ¬ (false = true) by simp)]
  rw [hwb0eq]
  dsimp only
  rw [hws0]

theorem reportCellAfter_eq (d : DataFrame α) (t o : String)
    (fs : FileSystem α) (hfs : FileSystem.WF fs) (hrows : d.rows ≠ []) :
    ∃ ws0 : Sheet α, Sheet.WF ws0 ∧ ∀ r c,
      reportCellAfter (some d) t o fs r c
        = (((ws0.writeHeaders 1 d.columns).clearDataRows).writeDataRows 2
            d.columns d.rows).cell r c := by
  obtain ⟨wb1, ws0, hget, hwf, heq⟩ := write_some_ok d t o fs hfs hrows
  refine ⟨ws0, hwf, ?_⟩
  intro r c
  unfold reportCellAfter
  rw [heq]
  dsimp only
  have hsave : (FileSystem.save (ensure_template_with_headers d.columns t fs)
      o (wb1.setSheet "Report"
        (((ws0.writeHeaders 1 d.columns).clearDataRows).writeDataRows 2
          d.columns d.rows))) o
      = some (wb1.setSheet "Report"
        (((ws0.writeHeaders 1 d.columns).clearDataRows).writeDataRows 2
          d.columns d.rows)) := by
    simp [FileSystem.save]
  rw [hsave]
  dsimp only
  rw [getSheet_setSheet wb1 "Report" _ (by rw [hget]; rfl)]

theorem findIdx?_get_nodup (cols : List String) (hnodup : cols.Nodup) :
    ∀ (j : Nat) (hj : j < cols.length),
      cols.findIdx? (fun c => c == cols.get ⟨j, hj⟩) = some j := by
  induction cols with
  | nil => intro j hj; exact absurd hj (by simp)
  | cons a rest ih =>
    intro j hj
    cases j with
    | zero => simp [List.findIdx?_cons]
    | succ j2 =>
      have hj2 : j2 < rest.length := by simpa using hj
      have hget : (a :: rest).get ⟨j2 + 1, hj⟩ = rest.get ⟨j2, hj2⟩ := rfl
      rw [hget, List.findIdx?_cons]
      have hne : (a == rest.get ⟨j2, hj2⟩) = false := by
        rw [beq_eq_false_iff_ne]
        intro heq
        exact (List.nodup_cons.mp hnodup).1 (heq ▸ rest.get_mem j2 hj2)
      rw [if_neg (by rw [hne]; simp)]
      rw [List.findIdx?_succ]
      rw [ih (List.nodup_cons.mp hnodup).2 j2 hj2]
      rfl

theorem seriesGet_nodup (cols : List String) (hnodup : cols.Nodup)
    (row : List (Option α)) (j : Nat) (hj : j < cols.length) :
    seriesGet cols row (cols.get ⟨j, hj⟩) = row.getD j none := by
  unfold seriesGet
  rw [findIdx?_get_nodup cols hnodup j hj]

/-- C4: a write of an empty result — a `None` DataFrame or one with zero
rows — fails with the no-data `ValueError` and leaves the file system (both
the template file and the output file) completely unmodified. -/
theorem write_empty_error (df : Option (DataFrame α)) (t o : String)
    (fs : FileSystem α)
    (h : df = none ∨ ∃ d, df = some d ∧ d.rows = []) :
    write_df_to_template df t o fs
        = Except.error "No data to write to template." ∧
    fsAfterWrite df t o fs = fs := by
  have hw : write_df_to_template df t o fs
      = Except.error "No data to write to template." := by
    rcases h with rfl | ⟨d, rfl, hd⟩
    · rfl
    · unfold write_df_to_template
      dsimp only
      rw [if_pos (by rw [hd]; rfl)]
  refine ⟨hw, ?_⟩
  unfold fsAfterWrite
  rw [hw]

theorem write_empty_error_witness :
    write_df_to_template (some (⟨["acct_id"], []⟩ : DataFrame Nat)) "t.xlsx"
        "o.xlsx" (fun _ => none)
      = Except.error "No data to write to template." ∧
    fsAfterWrite (some (⟨["acct_id"], []⟩ : DataFrame Nat)) "t.xlsx" "o.xlsx"
        (fun _ => none)
      = (fun _ => none) :=
  write_empty_error _ _ _ _ (Or.inr ⟨_, rfl, rfl⟩)

/-- C7: the template file is never overwritten — for a separate output path
and a pre-existing template file, the file stored at the template path after
any call of `write_df_to_template` is exactly the file stored there
before. -/
theorem template_file_unmodified (df : Option (DataFrame α)) (t o : String)
    (fs : FileSystem α) (hne : t ≠ o) (hex : (fs t).isSome) :
    fsAfterWrite df t o fs t = fs t := by
  unfold fsAfterWrite
  cases hw : write_df_to_template df t o fs with
  | error e => rfl
  | ok pr =>
    cases df with
    | none => exact absurd hw (by simp [write_df_to_template])
    | some d =>
      unfold write_df_to_template at hw
      dsimp only at hw
      by_cases hre : d.rows.isEmpty = true
      · rw [if_pos hre] at hw
        exact absurd hw (by simp)
      · rw [if_neg hre] at hw
        cases h1 : ensure_template_with_headers d.columns t fs t with
        | none =>
          rw [h1] at hw
          exact absurd hw (by simp)
        | some wb0 =>
          rw [h1] at hw
          dsimp only at hw
          cases h2 : (if wb0.sheetnames.contains "Report" then wb0
              else wb0.renameActiveToReport).getSheet "Report" with
          | none =>
            rw [h2] at hw
            exact absurd hw (by simp)
          | some ws0 =>
            rw [h2] at hw
            have hpr := (Except.ok.inj hw).symm
            rw [hpr]
            show FileSystem.save _ o _ t = fs t
            unfold FileSystem.save
            rw [if_neg hne]
            exact ensure_preserves_some d.columns t fs t hex

/-- C6: after a successful write, the header row of the "Report" sheet of the
output matches the result's column names positionally — the cell in row 1,
column `1 + j` holds the `j`-th column name — whatever header content the
template held before, including a wider pre-existing header. -/
theorem header_row_matches (d : DataFrame α) (t o : String)
    (fs : FileSystem α) (hfs : FileSystem.WF fs) (hrows : d.rows ≠ [])
    (j : Nat) (hj : j < d.columns.length) :
    reportCellAfter (some d) t o fs 1 (1 + j)
      = some (Sum.inl (d.columns.get ⟨j, hj⟩)) := by
  obtain ⟨ws0, hwf0, hcell⟩ := reportCellAfter_eq d t o fs hfs hrows
  rw [hcell]
  rw [writeDataRows_cell_other d.rows _ 2 d.columns 1 (1 + j)
    (Or.inl (by omega))]
  rw [clearData_cell_row1]
  exact writeHeaders_cell_at d.columns ws0 1 j hj

theorem header_row_matches_witness :
    reportCellAfter
        (some (⟨["acct_id", "balance"], [[some 7, none]]⟩ : DataFrame Nat))
        "t.xlsx" "o.xlsx" (fun _ => none) 1 1
      = some (Sum.inl "acct_id") :=
  header_row_matches (⟨["acct_id", "balance"], [[some 7, none]]⟩ : DataFrame Nat)
    "t.xlsx" "o.xlsx" (fun _ => none) (fun p wb h => by cases h)
    (by simp) 0 (by simp)

/-- C5: after a successful write, the data region of the "Report" sheet of
the output holds exactly the result's rows — cell `(2 + i, 1 + j)` holds row
`i`'s value in column `j`, with a null value stored as an empty cell — and
every cell strictly below the written rows or strictly right of the written
columns is empty, so no stale data from a previous larger write survives. -/
theorem data_region_matches (d : DataFrame α) (t o : String)
    (fs : FileSystem α) (hfs : FileSystem.WF fs) (hrows : d.rows ≠ [])
    (hnodup : d.columns.Nodup)
    (hlen : ∀ row ∈ d.rows, row.length = d.columns.length) :
    (∀ (i : Nat) (hi : i < d.rows.length) (j : Nat)
        (hj : j < d.columns.length),
      reportCellAfter (some d) t o fs (2 + i) (1 + j)
        = ((d.rows.get ⟨i, hi⟩).getD j none).map Sum.inr) ∧
    (∀ r c, 2 ≤ r → (d.rows.length + 2 ≤ r ∨ d.columns.length + 1 ≤ c) →
      reportCellAfter (some d) t o fs r c = none) := by
  obtain ⟨ws0, hwf0, hcell⟩ := reportCellAfter_eq d t o fs hfs hrows
  have hwf1 : (ws0.writeHeaders 1 d.columns).WF :=
    writeHeaders_WF d.columns ws0 1 le_rfl hwf0
  constructor
  · intro i hi j hj
    rw [hcell]
    rw [writeDataRows_cell_at d.rows _ 2 d.columns i hi j hj]
    rw [seriesGet_nodup d.columns hnodup _ j hj]
  · intro r c hr hout
    rw [hcell]
    rcases hout with h | h
    · rw [writeDataRows_cell_other d.rows _ 2 d.columns r c
        (Or.inr (by omega))]
      exact clearData_cell_none _ hwf1 r c hr
    · rw [writeDataRows_cell_outside_cols d.rows _ 2 d.columns r c (by omega)]
      exact clearData_cell_none _ hwf1 r c hr

theorem data_region_matches_witness :
    reportCellAfter
        (some (⟨["acct_id", "balance"], [[some 7, none]]⟩ : DataFrame Nat))
        "t.xlsx" "o.xlsx" (fun _ => none) 2 1 = some (Sum.inr 7) ∧
    reportCellAfter
        (some (⟨["acct_id", "balance"], [[some 7, none]]⟩ : DataFrame Nat))
        "t.xlsx" "o.xlsx" (fun _ => none) 2 2 = none ∧
    reportCellAfter
        (some (⟨["acct_id", "balance"], [[some 7, none]]⟩ : DataFrame Nat))
        "t.xlsx" "o.xlsx" (fun _ => none) 3 1 = none := by
  have h := data_region_matches
    (⟨["acct_id", "balance"], [[some 7, none]]⟩ : DataFrame Nat)
    "t.xlsx" "o.xlsx" (fun _ => none) (fun p wb hw => by cases hw)
    (by simp) (by simp) (by intro row hrow; simp at hrow; simp [hrow])
  exact ⟨h.1 0 (by simp) 0 (by simp), h.1 0 (by simp) 1 (by simp),
    h.2 3 1 (by omega) (by simp)⟩

theorem template_file_unmodified_witness :
    fsAfterWrite (some (⟨["acct_id"], [[some 5]]⟩ : DataFrame Nat))
        "template.xlsx" "report.xlsx"
        (fun p => if p = "template.xlsx"
          then some (newTemplateWorkbook Nat ["acct_id"]) else none)
        "template.xlsx"
      = (fun p => if p = "template.xlsx"
          then some (newTemplateWorkbook Nat ["acct_id"]) else none)
        "template.xlsx" :=
  template_file_unmodified
    (some (⟨["acct_id"], [[some 5]]⟩ : DataFrame Nat))
    "template.xlsx" "report.xlsx" _ (by decide) (by simp)
